import Mathlib

/-!
Shallow embedding of the sale-transaction and stock-consistency engine of the
Team-BOOZE inventory system.

Sources embedded:
- src/src/database_manager.py: get_product_details, process_sale_transaction
  (the atomic unit: insert transaction header, per cart line insert an item row,
  re-read the product stock, validate, decrement; commit on success, rollback on
  any sqlite3.Error).
- src/src/sales.py: LAST_TRANSACTION_ID, check_stock_availability, process_sale.

Modelling decisions:
- The sqlite store is a record of the three tables as lists of rows, plus the
  autoincrement counter that `cursor.lastrowid` reads after the header insert.
  A rollback restores the store exactly, counter included.
- Timestamps are omitted: no claim observes them.
- Python float prices are modelled as rationals; quantities are integers.
- The sqlite3.Error messages raised inside the loop are modelled structurally:
  each carries exactly the data interpolated into the Python f-string.
-/

/-- A row of the `booze` products table (the columns the sale engine reads). -/
structure Product where
  id : Nat
  name : String
  price : ℚ
  quantity_on_hand : Int
deriving Repr, DecidableEq

/-- A row of the `transactions` table (timestamp omitted: opaque to all claims). -/
structure TransactionRow where
  id : Nat
  total_amount : ℚ
deriving Repr, DecidableEq

/-- A row of the `transaction_items` table. -/
structure TransactionItemRow where
  transaction_id : Nat
  product_id : Nat
  quantity : Int
  price_at_sale : ℚ
deriving Repr, DecidableEq

/-- One cart line as assembled by sales.py: a dict with keys product_id, name,
quantity, price. -/
structure CartItem where
  product_id : Nat
  name : String
  quantity : Int
  price : ℚ
deriving Repr, DecidableEq

/-- The persistent store: the three tables, plus the autoincrement counter for
`transactions` row ids (what `cursor.lastrowid` returns after the INSERT). -/
structure DB where
  booze : List Product
  transactions : List TransactionRow
  transaction_items : List TransactionItemRow
  next_transaction_id : Nat
deriving Repr, DecidableEq

/-- The sqlite3.Error raised inside the loop of process_sale_transaction.
Each constructor carries exactly the data of the corresponding f-string:
"Product \x7bproduct_id\x7d not found" and "Insufficient stock for product
\x7bproduct_id\x7d: available \x7bcurrent_stock\x7d, requested \x7bquantity\x7d". -/
inductive SaleError where
  | productNotFound (product_id : Nat) : SaleError
  | insufficientStock (product_id : Nat) (available requested : Int) : SaleError
deriving Repr, DecidableEq

/-- The pair returned by process_sale_transaction: (True, transaction_id) on
commit, (False, error message) after a rollback. -/
inductive SaleResult where
  | ok (transaction_id : Nat) : SaleResult
  | err (e : SaleError) : SaleResult
deriving Repr, DecidableEq

/-- database_manager.get_product_details: SELECT id, name, price,
quantity_on_hand FROM booze WHERE id = ?, returning the first matching row. -/
def get_product_details (product_id : Nat) (db : DB) : Option Product :=
  db.booze.find? (fun p => p.id == product_id)

/-- UPDATE booze SET quantity_on_hand = ? WHERE id = ?. -/
def set_stock_rows (pid : Nat) (new_stock : Int) (rows : List Product) : List Product :=
  rows.map (fun q => if q.id == pid then { q with quantity_on_hand := new_stock } else q)

/-- INSERT INTO transactions (timestamp, total_amount) VALUES (?, ?): appends
the header row and advances the autoincrement counter. -/
def insert_transaction_row (db : DB) (total_amount : ℚ) : DB :=
  { db with
    transactions := db.transactions ++ [⟨db.next_transaction_id, total_amount⟩],
    next_transaction_id := db.next_transaction_id + 1 }

/-- The per-item loop of process_sale_transaction: for each cart line, insert
the transaction_items row, re-read the product stock (fresh SELECT), raise if
the product is missing or the decrement would go negative, else UPDATE. -/
def processItems (tid : Nat) : List CartItem → DB → Except SaleError DB
  | [], db => Except.ok db
  | item :: rest, db =>
    let db1 : DB :=
      { db with
        transaction_items :=
          db.transaction_items ++ [⟨tid, item.product_id, item.quantity, item.price⟩] }
    match db1.booze.find? (fun p => p.id == item.product_id) with
    | none => Except.error (SaleError.productNotFound item.product_id)
    | some p =>
      let new_stock := p.quantity_on_hand - item.quantity
      if new_stock < 0 then
        Except.error (SaleError.insufficientStock item.product_id p.quantity_on_hand item.quantity)
      else
        processItems tid rest { db1 with booze := set_stock_rows item.product_id new_stock db1.booze }

/-- database_manager.process_sale_transaction: the atomic unit. The header row
is inserted, the items loop runs; on success everything is committed and
(True, transaction_id) returned; on any sqlite3.Error the whole unit is rolled
back (the store returns to its pre-call state) and (False, message) returned. -/
def process_sale_transaction (cart_items : List CartItem) (total_amount : ℚ) (db : DB) :
    SaleResult × DB :=
  match processItems db.next_transaction_id cart_items (insert_transaction_row db total_amount) with
  | Except.ok db2 => (SaleResult.ok db.next_transaction_id, db2)
  | Except.error e => (SaleResult.err e, db)

/-- The module-level mutable state of sales.py: the store reached through
database_manager plus the global LAST_TRANSACTION_ID (scrum-72). -/
structure SalesState where
  db : DB
  last_transaction_id : Option Nat
deriving Repr, DecidableEq

/-- The message part of the pair returned by sales.process_sale, structurally:
"Cannot process empty cart", "Sale completed successfully! Transaction ID:
\x7bresult\x7d", or "Sale failed: \x7bresult\x7d". -/
inductive SaleMsg where
  | cannotProcessEmptyCart : SaleMsg
  | completed (transaction_id : Nat) : SaleMsg
  | saleFailed (e : SaleError) : SaleMsg
deriving Repr, DecidableEq

/-- sales.process_sale: reject an empty cart before touching the store,
compute the total from the cart, run the atomic unit, and on success record
the new id in the global LAST_TRANSACTION_ID. -/
def process_sale (cart : List CartItem) (st : SalesState) : (Bool × SaleMsg) × SalesState :=
  if cart.isEmpty then ((false, SaleMsg.cannotProcessEmptyCart), st)
  else
    match process_sale_transaction cart
        ((cart.map (fun item => item.price * (item.quantity : ℚ))).sum) st.db with
    | (SaleResult.ok tid, db2) =>
      ((true, SaleMsg.completed tid), ⟨db2, some tid⟩)
    | (SaleResult.err e, db2) =>
      ((false, SaleMsg.saleFailed e), { st with db := db2 })

/-- The error part of check_stock_availability, structurally: "Product with ID
\x7bproduct_id\x7d not found" or "Insufficient stock for \x7bname\x7d. Available:
..., Already in cart: ..., Requested: ..., Total needed: ...". -/
inductive StockCheckErr where
  | productNotFoundMsg (product_id : Nat) : StockCheckErr
  | insufficientMsg (name : String)
      (available already_in_cart requested total_needed : Int) : StockCheckErr
deriving Repr, DecidableEq

/-- sales.check_stock_availability (scrum-38): the advisory pre-sale check,
accounting for quantities of the same product already in the cart. Returns
(is_available, product_data, error_message). -/
def check_stock_availability (product_id : Nat) (requested_quantity : Int)
    (cart : List CartItem) (db : DB) : Bool × Option Product × Option StockCheckErr :=
  match get_product_details product_id db with
  | none => (false, none, some (StockCheckErr.productNotFoundMsg product_id))
  | some product =>
    if product.quantity_on_hand <
        ((cart.filter (fun item => item.product_id == product_id)).map
          (fun item => item.quantity)).sum + requested_quantity then
      (false, some product,
        some (StockCheckErr.insufficientMsg product.name product.quantity_on_hand
          (((cart.filter (fun item => item.product_id == product_id)).map
            (fun item => item.quantity)).sum)
          requested_quantity
          ((((cart.filter (fun item => item.product_id == product_id)).map
            (fun item => item.quantity)).sum) + requested_quantity)))
    else
      (true, some product, none)

/-- A sequence of sale commits: each operation is a cart with its total, applied
through process_sale_transaction in order. -/
def commitSeq : List (List CartItem × ℚ) → DB → DB
  | [], db => db
  | op :: rest, db => commitSeq rest (process_sale_transaction op.1 op.2 db).2

/-- Observer on a list of booze rows: the quantity_on_hand of the first row
with the given id. -/
def stockOf (rows : List Product) (pid : Nat) : Option Int :=
  (rows.find? (fun p => p.id == pid)).map (fun p => p.quantity_on_hand)

/-- Observer: the quantity_on_hand of the first booze row with the given id. -/
def get_stock (db : DB) (pid : Nat) : Option Int :=
  stockOf db.booze pid

/-- Total quantity requested for one product across all lines of a cart. -/
def cartQty (cart : List CartItem) (pid : Nat) : Int :=
  ((cart.filter (fun item => item.product_id == pid)).map (fun item => item.quantity)).sum

/-- Invariant on a list of booze rows: no stock value is negative. -/
def nonnegRows (rows : List Product) : Prop :=
  ∀ p ∈ rows, 0 ≤ p.quantity_on_hand

/-- The store invariant: no product's stock is negative. -/
def nonnegStock (db : DB) : Prop :=
  nonnegRows db.booze

/-! ### Basic lemmas about the row-level operations -/

/-- Unfolding equation for one step of the item loop. -/
lemma processItems_cons (tid : Nat) (item : CartItem) (rest : List CartItem) (db : DB) :
    processItems tid (item :: rest) db =
      match db.booze.find? (fun p => p.id == item.product_id) with
      | none => Except.error (SaleError.productNotFound item.product_id)
      | some p =>
        if p.quantity_on_hand - item.quantity < 0 then
          Except.error
            (SaleError.insufficientStock item.product_id p.quantity_on_hand item.quantity)
        else
          processItems tid rest
            { booze := set_stock_rows item.product_id (p.quantity_on_hand - item.quantity) db.booze,
              transactions := db.transactions,
              transaction_items :=
                db.transaction_items ++ [⟨tid, item.product_id, item.quantity, item.price⟩],
              next_transaction_id := db.next_transaction_id } := rfl

/-- find? after a stock UPDATE: the found row, with its stock rewritten when
its id is the updated one. -/
lemma find?_set_stock_rows (pid' pid : Nat) (v : Int) (rows : List Product) :
    (set_stock_rows pid v rows).find? (fun q => q.id == pid') =
      (rows.find? (fun q => q.id == pid')).map
        (fun q => if q.id == pid then { q with quantity_on_hand := v } else q) := by
  induction rows with
  | nil => rfl
  | cons a l ih =>
    rw [show set_stock_rows pid v (a :: l) =
      (if a.id == pid then { a with quantity_on_hand := v } else a) :: set_stock_rows pid v l
      from rfl]
    have hid : (if a.id == pid then { a with quantity_on_hand := v } else a).id = a.id := by
      split <;> rfl
    by_cases h1 : a.id = pid'
    · rw [List.find?_cons_of_pos _ (by simp only [hid]; simp [h1]),
        List.find?_cons_of_pos _ (by simp [h1])]
      rfl
    · rw [List.find?_cons_of_neg _ (by simp only [hid]; simp [h1]),
        List.find?_cons_of_neg _ (by simp [h1])]
      exact ih

/-- stockOf after a stock UPDATE. -/
lemma stockOf_set_stock_rows (rows : List Product) (pid : Nat) (v : Int) (pid' : Nat) :
    stockOf (set_stock_rows pid v rows) pid' =
      if pid' = pid then (stockOf rows pid').map (fun _ => v) else stockOf rows pid' := by
  unfold stockOf
  rw [find?_set_stock_rows]
  cases hfind : rows.find? (fun q => q.id == pid') with
  | none => by_cases h : pid' = pid <;> simp [h]
  | some q =>
    have hq : q.id = pid' := by simpa using List.find?_some hfind
    by_cases h : pid' = pid <;> simp [hq, h]

/-- A cart's demand for one product, one line at a time. -/
lemma cartQty_cons (item : CartItem) (rest : List CartItem) (pid : Nat) :
    cartQty (item :: rest) pid =
      (if item.product_id = pid then item.quantity else 0) + cartQty rest pid := by
  by_cases h : item.product_id = pid <;> simp [cartQty, List.filter_cons, h]

/-- Demand is nonnegative whenever every line's quantity is. -/
lemma cartQty_nonneg (cart : List CartItem) (pid : Nat)
    (hq : ∀ it ∈ cart, 0 ≤ it.quantity) : 0 ≤ cartQty cart pid := by
  induction cart with
  | nil => simp [cartQty]
  | cons a l ih =>
    rw [cartQty_cons]
    have h1 : (0 : Int) ≤ if a.product_id = pid then a.quantity else 0 := by
      split
      · exact hq a (List.mem_cons_self a l)
      · exact le_refl 0
    have h2 := ih (fun it hit => hq it (List.mem_cons_of_mem a hit))
    omega

/-- Demand for a product with no line in the cart is zero. -/
lemma cartQty_eq_zero (cart : List CartItem) (pid : Nat)
    (h : ∀ it ∈ cart, it.product_id ≠ pid) : cartQty cart pid = 0 := by
  induction cart with
  | nil => simp [cartQty]
  | cons a l ih =>
    rw [cartQty_cons, if_neg (h a (List.mem_cons_self a l))]
    rw [ih (fun it hit => h it (List.mem_cons_of_mem a hit))]
    omega

/-! ### Characterising runs of the atomic unit -/

/-- Projection of an explicit store value. -/
lemma DB_booze (b : List Product) (t : List TransactionRow)
    (ti : List TransactionItemRow) (n : Nat) : (DB.mk b t ti n).booze = b := rfl

/-- Projection of an explicit store value. -/
lemma DB_transactions (b : List Product) (t : List TransactionRow)
    (ti : List TransactionItemRow) (n : Nat) : (DB.mk b t ti n).transactions = t := rfl

/-- Projection of an explicit store value. -/
lemma DB_items (b : List Product) (t : List TransactionRow)
    (ti : List TransactionItemRow) (n : Nat) : (DB.mk b t ti n).transaction_items = ti := rfl

/-- Projection of an explicit store value. -/
lemma DB_next (b : List Product) (t : List TransactionRow)
    (ti : List TransactionItemRow) (n : Nat) : (DB.mk b t ti n).next_transaction_id = n := rfl

/-- Rollback: whenever the unit fails, the returned store is the pre-call one. -/
lemma pst_err_state (cart : List CartItem) (total : ℚ) (db : DB) (e : SaleError)
    (h : (process_sale_transaction cart total db).1 = SaleResult.err e) :
    (process_sale_transaction cart total db).2 = db := by
  unfold process_sale_transaction at *
  cases hpi : processItems db.next_transaction_id cart (insert_transaction_row db total) with
  | ok db2 => rw [hpi] at h; exact absurd h (by simp)
  | error e2 => rfl

/-- A successful run of the item loop: transactions and the counter untouched,
one item row appended per line in order, and every product's stock lowered by
the cart's total demand for it. -/
lemma processItems_ok_state (tid : Nat) (cart : List CartItem) (db db2 : DB)
    (h : processItems tid cart db = Except.ok db2) :
    db2.transactions = db.transactions ∧
    db2.next_transaction_id = db.next_transaction_id ∧
    db2.transaction_items = db.transaction_items ++
      cart.map (fun item =>
        (⟨tid, item.product_id, item.quantity, item.price⟩ : TransactionItemRow)) ∧
    ∀ pid, stockOf db2.booze pid =
      (stockOf db.booze pid).map (fun s => s - cartQty cart pid) := by
  induction cart generalizing db with
  | nil =>
    have hdb : db = db2 := by simpa [processItems] using h
    subst hdb
    refine ⟨rfl, rfl, by simp, ?_⟩
    intro pid
    cases hs : stockOf db.booze pid <;> simp [cartQty]
  | cons item rest ih =>
    rw [processItems_cons] at h
    split at h
    · exact absurd h (by simp)
    · rename_i p hfind
      split at h
      · exact absurd h (by simp)
      · rename_i hneg
        have hpid : p.id = item.product_id := by simpa using List.find?_some hfind
        have hstock : stockOf db.booze item.product_id = some p.quantity_on_hand := by
          unfold stockOf; rw [hfind]; rfl
        obtain ⟨h1, h2, h3, h4⟩ := ih _ h
        rw [DB_transactions] at h1
        rw [DB_next] at h2
        rw [DB_items] at h3
        refine ⟨h1, h2, ?_, ?_⟩
        · rw [h3]; simp
        · intro pid
          rw [h4 pid, DB_booze, stockOf_set_stock_rows]
          by_cases hpp : pid = item.product_id
          · subst hpp
            rw [if_pos rfl, hstock, cartQty_cons, if_pos rfl]
            simp
            omega
          · rw [if_neg hpp, cartQty_cons, if_neg (fun hc => hpp hc.symm)]
            cases hs : stockOf db.booze pid <;> simp

/-- A successful commit: the returned id is the counter value, the header row
is appended with the given total, one item row is appended per cart line, and
every product's stock drops by the cart's demand for it. -/
lemma pst_ok_state (cart : List CartItem) (total : ℚ) (db : DB) (tid : Nat)
    (h : (process_sale_transaction cart total db).1 = SaleResult.ok tid) :
    tid = db.next_transaction_id ∧
    (process_sale_transaction cart total db).2.transactions =
      db.transactions ++ [⟨db.next_transaction_id, total⟩] ∧
    (process_sale_transaction cart total db).2.transaction_items =
      db.transaction_items ++ cart.map (fun item =>
        (⟨db.next_transaction_id, item.product_id, item.quantity, item.price⟩ :
          TransactionItemRow)) ∧
    (process_sale_transaction cart total db).2.next_transaction_id =
      db.next_transaction_id + 1 ∧
    ∀ pid, get_stock (process_sale_transaction cart total db).2 pid =
      (get_stock db pid).map (fun s => s - cartQty cart pid) := by
  unfold process_sale_transaction at *
  cases hpi : processItems db.next_transaction_id cart (insert_transaction_row db total) with
  | ok db2 =>
    rw [hpi] at h
    have h' : SaleResult.ok db.next_transaction_id = SaleResult.ok tid := h
    have htid : tid = db.next_transaction_id := by
      injection h' with h''
      exact h''.symm
    obtain ⟨h1, h2, h3, h4⟩ := processItems_ok_state db.next_transaction_id cart _ db2 hpi
    refine ⟨htid, ?_, ?_, ?_, ?_⟩
    · rw [h1]; rfl
    · rw [h3]; rfl
    · rw [h2]; rfl
    · intro pid
      unfold get_stock
      rw [h4 pid]
      rfl
  | error e2 => rw [hpi] at h; exact absurd h (by simp)

/-- The item loop over a concatenated cart runs the first part, then the
second from the state the first part reached. -/
lemma processItems_append (tid : Nat) (l1 l2 : List CartItem) (db : DB) :
    processItems tid (l1 ++ l2) db =
      match processItems tid l1 db with
      | Except.ok dbm => processItems tid l2 dbm
      | Except.error e => Except.error e := by
  induction l1 generalizing db with
  | nil => rfl
  | cons a l ih =>
    rw [List.cons_append, processItems_cons, processItems_cons]
    split
    · rfl
    · rename_i p hfind
      by_cases hneg : p.quantity_on_hand - a.quantity < 0
      · rw [if_pos hneg, if_pos hneg]
      · rw [if_neg hneg, if_neg hneg]
        exact ih _

/-- A stock UPDATE with a nonnegative value keeps all stocks nonnegative. -/
lemma nonneg_set_stock_rows (rows : List Product) (pid : Nat) (v : Int) (hv : 0 ≤ v)
    (h : nonnegRows rows) : nonnegRows (set_stock_rows pid v rows) := by
  intro p hp
  unfold set_stock_rows at hp
  rw [List.mem_map] at hp
  obtain ⟨q, hq, hpq⟩ := hp
  subst hpq
  by_cases hc : q.id = pid
  · simp [hc]; exact hv
  · simp [hc]; exact h q hq

/-- The item loop never writes a negative stock. -/
lemma processItems_nonneg (tid : Nat) (cart : List CartItem) (db db2 : DB)
    (h : processItems tid cart db = Except.ok db2)
    (hn : nonnegRows db.booze) : nonnegRows db2.booze := by
  induction cart generalizing db with
  | nil =>
    have hdb : db = db2 := by simpa [processItems] using h
    subst hdb; exact hn
  | cons item rest ih =>
    rw [processItems_cons] at h
    split at h
    · exact absurd h (by simp)
    · rename_i p hfind
      split at h
      · exact absurd h (by simp)
      · rename_i hneg
        refine ih _ h ?_
        rw [DB_booze]
        exact nonneg_set_stock_rows _ _ _ (by omega) hn

/-- The atomic unit preserves the nonnegative-stock invariant. -/
lemma pst_nonneg (cart : List CartItem) (total : ℚ) (db : DB)
    (hn : nonnegStock db) : nonnegStock (process_sale_transaction cart total db).2 := by
  unfold process_sale_transaction
  cases hpi : processItems db.next_transaction_id cart (insert_transaction_row db total) with
  | ok db2 => exact processItems_nonneg _ cart _ db2 hpi hn
  | error e2 => exact hn

/-- Step equation: the head line's product is missing. -/
lemma processItems_cons_none (tid : Nat) (item : CartItem) (rest : List CartItem) (db : DB)
    (hfind : db.booze.find? (fun p => p.id == item.product_id) = none) :
    processItems tid (item :: rest) db =
      Except.error (SaleError.productNotFound item.product_id) := by
  rw [processItems_cons]
  split
  · rfl
  · rename_i q hf
    rw [hfind] at hf
    exact Option.noConfusion hf

/-- Step equation: the head line's decrement would go negative. -/
lemma processItems_cons_insufficient (tid : Nat) (item : CartItem) (rest : List CartItem)
    (db : DB) (p : Product)
    (hfind : db.booze.find? (fun q => q.id == item.product_id) = some p)
    (hneg : p.quantity_on_hand - item.quantity < 0) :
    processItems tid (item :: rest) db =
      Except.error
        (SaleError.insufficientStock item.product_id p.quantity_on_hand item.quantity) := by
  rw [processItems_cons]
  split
  · rename_i hf
    rw [hfind] at hf
    exact Option.noConfusion hf
  · rename_i q hf
    rw [hfind] at hf
    injection hf with h
    subst h
    rw [if_pos hneg]

/-- Step equation: the head line passes its check and the loop recurses on the
updated store. -/
lemma processItems_cons_step (tid : Nat) (item : CartItem) (rest : List CartItem)
    (db : DB) (p : Product)
    (hfind : db.booze.find? (fun q => q.id == item.product_id) = some p)
    (hneg : ¬ p.quantity_on_hand - item.quantity < 0) :
    processItems tid (item :: rest) db =
      processItems tid rest
        (DB.mk (set_stock_rows item.product_id (p.quantity_on_hand - item.quantity) db.booze)
          db.transactions
          (db.transaction_items ++ [⟨tid, item.product_id, item.quantity, item.price⟩])
          db.next_transaction_id) := by
  rw [processItems_cons]
  split
  · rename_i hf
    rw [hfind] at hf
    exact Option.noConfusion hf
  · rename_i q hf
    rw [hfind] at hf
    injection hf with h
    subst h
    rw [if_neg hneg]

/-- The item loop succeeds exactly when every line's product exists and the
cart's total demand for it fits its stock at entry. Positive line quantities
are the cart-validation contract (scrum-38). -/
lemma processItems_ok_iff (tid : Nat) (cart : List CartItem) (db : DB)
    (hq : ∀ it ∈ cart, 0 < it.quantity) :
    (∃ db2, processItems tid cart db = Except.ok db2) ↔
      ∀ it ∈ cart, ∃ s, stockOf db.booze it.product_id = some s ∧
        cartQty cart it.product_id ≤ s := by
  induction cart generalizing db with
  | nil => simp [processItems]
  | cons item rest ih =>
    have hqr : ∀ it ∈ rest, 0 < it.quantity :=
      fun it hit => hq it (List.mem_cons_of_mem item hit)
    have hq0 : ∀ it ∈ rest, 0 ≤ it.quantity := fun it hit => le_of_lt (hqr it hit)
    cases hfind : db.booze.find? (fun p => p.id == item.product_id) with
    | none =>
      rw [processItems_cons_none tid item rest db hfind]
      constructor
      · rintro ⟨db2, hdb2⟩
        exact absurd hdb2 (by simp)
      · intro H
        obtain ⟨s, hs, _⟩ := H item (List.mem_cons_self item rest)
        unfold stockOf at hs
        rw [hfind] at hs
        exact absurd hs (by simp)
    | some p =>
      have hstock : stockOf db.booze item.product_id = some p.quantity_on_hand := by
        unfold stockOf; rw [hfind]; rfl
      by_cases hneg : p.quantity_on_hand - item.quantity < 0
      · rw [processItems_cons_insufficient tid item rest db p hfind hneg]
        constructor
        · rintro ⟨db2, hdb2⟩
          exact absurd hdb2 (by simp)
        · intro H
          obtain ⟨s, hs, hle⟩ := H item (List.mem_cons_self item rest)
          rw [hstock] at hs
          injection hs with hs'
          rw [cartQty_cons, if_pos rfl] at hle
          have hnn := cartQty_nonneg rest item.product_id hq0
          omega
      · rw [processItems_cons_step tid item rest db p hfind hneg, ih _ hqr]
        have hupd : ∀ pid, stockOf (set_stock_rows item.product_id
            (p.quantity_on_hand - item.quantity) db.booze) pid =
              if pid = item.product_id
              then (stockOf db.booze pid).map
                (fun _ => p.quantity_on_hand - item.quantity)
              else stockOf db.booze pid :=
          fun pid => stockOf_set_stock_rows _ _ _ _
        constructor
        · intro H it hit
          rcases List.mem_cons.mp hit with rfl | hit'
          · refine ⟨p.quantity_on_hand, hstock, ?_⟩
            rw [cartQty_cons, if_pos rfl]
            by_cases hex : ∃ it2 ∈ rest, it2.product_id = it.product_id
            · obtain ⟨it2, hit2, hpid2⟩ := hex
              obtain ⟨s2, hs2, hle2⟩ := H it2 hit2
              rw [DB_booze, hupd it2.product_id, hpid2, if_pos rfl, hstock] at hs2
              simp at hs2
              rw [hpid2] at hle2
              have hnn := cartQty_nonneg rest it.product_id hq0
              omega
            · push_neg at hex
              have hz : cartQty rest it.product_id = 0 :=
                cartQty_eq_zero rest it.product_id hex
              omega
          · obtain ⟨s2, hs2, hle2⟩ := H it hit'
            rw [DB_booze, hupd it.product_id] at hs2
            by_cases hpp : it.product_id = item.product_id
            · rw [if_pos hpp, hpp, hstock] at hs2
              simp at hs2
              refine ⟨p.quantity_on_hand, ?_, ?_⟩
              · rw [hpp]; exact hstock
              · rw [hpp, cartQty_cons, if_pos rfl]
                rw [hpp] at hle2
                omega
            · rw [if_neg hpp] at hs2
              refine ⟨s2, hs2, ?_⟩
              rw [cartQty_cons, if_neg (fun hc => hpp hc.symm)]
              omega
        · intro H it hit
          obtain ⟨s2, hs2, hle2⟩ := H it (List.mem_cons_of_mem item hit)
          rw [DB_booze, hupd it.product_id]
          by_cases hpp : it.product_id = item.product_id
          · rw [if_pos hpp, hpp, hstock]
            refine ⟨p.quantity_on_hand - item.quantity, rfl, ?_⟩
            rw [hpp] at hs2 hle2
            rw [hstock] at hs2
            injection hs2 with hs2'
            rw [cartQty_cons, if_pos rfl] at hle2
            omega
          · rw [if_neg hpp]
            refine ⟨s2, hs2, ?_⟩
            rw [cartQty_cons, if_neg (fun hc => hpp hc.symm)] at hle2
            omega

/-- Unfolding equation for the advisory check when the product exists: the
inline cart sum is cartQty by definition. -/
lemma check_stock_availability_some (product_id : Nat) (requested_quantity : Int)
    (cart : List CartItem) (db : DB) (p : Product)
    (hfind : get_product_details product_id db = some p) :
    check_stock_availability product_id requested_quantity cart db =
      if p.quantity_on_hand < cartQty cart product_id + requested_quantity then
        (false, some p,
          some (StockCheckErr.insufficientMsg p.name p.quantity_on_hand
            (cartQty cart product_id) requested_quantity
            (cartQty cart product_id + requested_quantity)))
      else (true, some p, none) := by
  unfold check_stock_availability
  split
  · rename_i hf
    rw [hfind] at hf
    exact Option.noConfusion hf
  · rename_i q hf
    rw [hfind] at hf
    injection hf with h
    subst h
    rfl

/-! ### Sample stores for concrete evaluations -/

/-- A store holding one product, id 1, price 5, stock 5 (Scenario B setup). -/
def dbLow : DB := ⟨[⟨1, "Gin", 5, 5⟩], [], [], 1⟩

/-- A store holding one product, id 1, price 5, stock 50 (Scenario A setup). -/
def dbHigh : DB := ⟨[⟨1, "Gin", 5, 50⟩], [], [], 1⟩

/-- Sales-module state over dbHigh with no last transaction recorded. -/
def stHigh : SalesState := ⟨dbHigh, none⟩

/-- Sales-module state over dbLow with a previously recorded transaction id. -/
def stLow : SalesState := ⟨dbLow, some 7⟩

/-! ### Claims -/

/-- C1. Atomicity of a failed commit: for every cart and every initial store
state, if process_sale_transaction returns failure for any reason, then the
transaction rows, the transaction-item rows, and the quantity_on_hand of every
product are exactly as they were before the call. -/
theorem claim_C1_failed_commit_atomicity (cart : List CartItem) (total : ℚ) (db : DB)
    (e : SaleError) (h : (process_sale_transaction cart total db).1 = SaleResult.err e) :
    (process_sale_transaction cart total db).2.transactions = db.transactions ∧
    (process_sale_transaction cart total db).2.transaction_items = db.transaction_items ∧
    ∀ pid, get_stock (process_sale_transaction cart total db).2 pid = get_stock db pid := by
  rw [pst_err_state cart total db e h]
  exact ⟨rfl, rfl, fun pid => rfl⟩

/-- Witness for C1: Scenario B (stock 5, requested 10) fails and leaves the
store untouched. -/
theorem claim_C1_failed_commit_atomicity_witness :
    (process_sale_transaction [⟨1, "Gin", 10, 5⟩] 50 dbLow).1 =
      SaleResult.err (SaleError.insufficientStock 1 5 10) ∧
    ((process_sale_transaction [⟨1, "Gin", 10, 5⟩] 50 dbLow).2.transactions =
        dbLow.transactions ∧
      (process_sale_transaction [⟨1, "Gin", 10, 5⟩] 50 dbLow).2.transaction_items =
        dbLow.transaction_items ∧
      ∀ pid, get_stock (process_sale_transaction [⟨1, "Gin", 10, 5⟩] 50 dbLow).2 pid =
        get_stock dbLow pid) :=
  ⟨by rfl, claim_C1_failed_commit_atomicity _ _ _ _ (by rfl)⟩

/-- C2. Non-negative stock invariant: from a store where every
quantity_on_hand is nonnegative, no sequence of sale commits can drive any
product's stock below 0, and any failing commit has no effect at all. -/
theorem claim_C2_nonneg_stock_invariant (ops : List (List CartItem × ℚ)) (db : DB)
    (h : nonnegStock db) :
    nonnegStock (commitSeq ops db) ∧
    ∀ (cart : List CartItem) (total : ℚ) (e : SaleError),
      (process_sale_transaction cart total (commitSeq ops db)).1 = SaleResult.err e →
      (process_sale_transaction cart total (commitSeq ops db)).2 = commitSeq ops db := by
  refine ⟨?_, fun cart total e he => pst_err_state _ _ _ _ he⟩
  induction ops generalizing db with
  | nil => exact h
  | cons op rest ih => exact ih _ (pst_nonneg op.1 op.2 db h)

/-- Witness for C2: a successful sale of 2 from stock 5 followed by a failing
oversale keeps stocks nonnegative. -/
theorem claim_C2_nonneg_stock_invariant_witness :
    nonnegStock dbLow ∧
    (nonnegStock (commitSeq [([⟨1, "Gin", 2, 5⟩], 10), ([⟨1, "Gin", 9, 5⟩], 45)] dbLow) ∧
      ∀ (cart : List CartItem) (total : ℚ) (e : SaleError),
        (process_sale_transaction cart total
          (commitSeq [([⟨1, "Gin", 2, 5⟩], 10), ([⟨1, "Gin", 9, 5⟩], 45)] dbLow)).1 =
            SaleResult.err e →
        (process_sale_transaction cart total
          (commitSeq [([⟨1, "Gin", 2, 5⟩], 10), ([⟨1, "Gin", 9, 5⟩], 45)] dbLow)).2 =
          commitSeq [([⟨1, "Gin", 2, 5⟩], 10), ([⟨1, "Gin", 9, 5⟩], 45)] dbLow) :=
  ⟨by unfold nonnegStock nonnegRows; decide,
    claim_C2_nonneg_stock_invariant _ _ (by unfold nonnegStock nonnegRows; decide)⟩

/-- C6. EmptyCart: a commit attempted with zero line items fails immediately
with the empty-cart error and the whole state — store and
LAST_TRANSACTION_ID — is returned untouched. -/
theorem claim_C6_empty_cart_rejected (st : SalesState) :
    process_sale [] st = ((false, SaleMsg.cannotProcessEmptyCart), st) := rfl

/-- C10. Frame condition on the global LAST_TRANSACTION_ID: process_sale sets
it to the new transaction id exactly when the commit succeeds; on any failure
it is left unchanged. -/
theorem claim_C10_last_transaction_id_frame (cart : List CartItem) (st : SalesState) :
    (process_sale cart st).2.last_transaction_id =
      if (process_sale cart st).1.1 then some st.db.next_transaction_id
      else st.last_transaction_id := by
  unfold process_sale
  cases cart with
  | nil => rfl
  | cons a l =>
    unfold process_sale_transaction
    cases hpi : processItems st.db.next_transaction_id (a :: l)
        (insert_transaction_row st.db
          ((List.map (fun item => item.price * (item.quantity : ℚ)) (a :: l)).sum)) with
    | ok db2 => rfl
    | error e => rfl

/-- C3. Success postconditions: a successful commit returns the counter value
as fresh id T, appends exactly one header row carrying T and the given total,
appends exactly one item row per cart line referencing T, and lowers every
product's stock by the cart's demand for it — all in the one returned store. -/
theorem claim_C3_success_postconditions (cart : List CartItem) (total : ℚ) (db : DB)
    (tid : Nat) (hne : cart ≠ [])
    (hfresh : ∀ t ∈ db.transactions, t.id < db.next_transaction_id)
    (h : (process_sale_transaction cart total db).1 = SaleResult.ok tid) :
    tid = db.next_transaction_id ∧
    tid ∉ db.transactions.map TransactionRow.id ∧
    (process_sale_transaction cart total db).2.transactions =
      db.transactions ++ [⟨tid, total⟩] ∧
    (process_sale_transaction cart total db).2.transaction_items =
      db.transaction_items ++ cart.map (fun item =>
        (⟨tid, item.product_id, item.quantity, item.price⟩ : TransactionItemRow)) ∧
    ∀ pid, get_stock (process_sale_transaction cart total db).2 pid =
      (get_stock db pid).map (fun s => s - cartQty cart pid) := by
  obtain ⟨htid, h1, h2, h3, h4⟩ := pst_ok_state cart total db tid h
  subst htid
  refine ⟨rfl, ?_, h1, h2, h4⟩
  intro hmem
  rw [List.mem_map] at hmem
  obtain ⟨t, ht, htt⟩ := hmem
  have := hfresh t ht
  omega

/-- Witness for C3: Scenario A (stock 50, one line of quantity 10 at price 5,
total 50) commits with transaction id 1. -/
theorem claim_C3_success_postconditions_witness :
    ([⟨1, "Gin", 10, 5⟩] : List CartItem) ≠ [] ∧
    (∀ t ∈ dbHigh.transactions, t.id < dbHigh.next_transaction_id) ∧
    (process_sale_transaction [⟨1, "Gin", 10, 5⟩] 50 dbHigh).1 = SaleResult.ok 1 ∧
    (1 = dbHigh.next_transaction_id ∧
      1 ∉ dbHigh.transactions.map TransactionRow.id ∧
      (process_sale_transaction [⟨1, "Gin", 10, 5⟩] 50 dbHigh).2.transactions =
        dbHigh.transactions ++ [⟨1, 50⟩] ∧
      (process_sale_transaction [⟨1, "Gin", 10, 5⟩] 50 dbHigh).2.transaction_items =
        dbHigh.transaction_items ++ ([⟨1, "Gin", 10, 5⟩] : List CartItem).map (fun item =>
          (⟨1, item.product_id, item.quantity, item.price⟩ : TransactionItemRow)) ∧
      ∀ pid, get_stock (process_sale_transaction [⟨1, "Gin", 10, 5⟩] 50 dbHigh).2 pid =
        (get_stock dbHigh pid).map
          (fun s => s - cartQty [⟨1, "Gin", 10, 5⟩] pid)) :=
  ⟨by simp, by decide, by rfl,
    claim_C3_success_postconditions _ _ _ _ (by simp) (by decide) (by rfl)⟩

/-- C4. InsufficientStock: if the loop reaches a cart line whose requested
quantity exceeds that product's live stock as re-read at commit time, the whole
sale aborts with an insufficient-stock failure carrying the product id, the
available quantity and the requested quantity, and nothing is persisted. -/
theorem claim_C4_insufficient_stock_abort (pre : List CartItem) (item : CartItem)
    (rest : List CartItem) (total : ℚ) (db dbm : DB) (p : Product)
    (hpre : processItems db.next_transaction_id pre (insert_transaction_row db total) =
      Except.ok dbm)
    (hfind : dbm.booze.find? (fun q => q.id == item.product_id) = some p)
    (hlt : p.quantity_on_hand < item.quantity) :
    (process_sale_transaction (pre ++ item :: rest) total db).1 =
      SaleResult.err
        (SaleError.insufficientStock item.product_id p.quantity_on_hand item.quantity) ∧
    (process_sale_transaction (pre ++ item :: rest) total db).2 = db := by
  have hrun : processItems db.next_transaction_id (pre ++ item :: rest)
      (insert_transaction_row db total) =
      Except.error
        (SaleError.insufficientStock item.product_id p.quantity_on_hand item.quantity) := by
    rw [processItems_append, hpre]
    exact processItems_cons_insufficient _ item rest dbm p hfind (by omega)
  unfold process_sale_transaction
  rw [hrun]
  exact ⟨rfl, rfl⟩

/-- Witness for C4: Scenario B — stock 5, requested 10, failure carries
(product 1, available 5, requested 10) and the store is unchanged. -/
theorem claim_C4_insufficient_stock_abort_witness :
    processItems dbLow.next_transaction_id [] (insert_transaction_row dbLow 50) =
      Except.ok (insert_transaction_row dbLow 50) ∧
    (insert_transaction_row dbLow 50).booze.find?
      (fun q => q.id == (⟨1, "Gin", 10, 5⟩ : CartItem).product_id) =
        some ⟨1, "Gin", 5, 5⟩ ∧
    (⟨1, "Gin", 5, 5⟩ : Product).quantity_on_hand < (⟨1, "Gin", 10, 5⟩ : CartItem).quantity ∧
    ((process_sale_transaction ([] ++ ⟨1, "Gin", 10, 5⟩ :: []) 50 dbLow).1 =
      SaleResult.err (SaleError.insufficientStock 1 5 10) ∧
      (process_sale_transaction ([] ++ ⟨1, "Gin", 10, 5⟩ :: []) 50 dbLow).2 = dbLow) :=
  ⟨by rfl, by rfl, by decide,
    claim_C4_insufficient_stock_abort [] _ [] 50 dbLow _ ⟨1, "Gin", 5, 5⟩
      (by rfl) (by rfl) (by decide)⟩

/-- C5. ProductNotFound: if the loop reaches a cart line whose product_id has
no booze row at commit time, the whole sale aborts with a product-not-found
failure carrying the product id, and nothing is persisted. -/
theorem claim_C5_product_not_found_abort (pre : List CartItem) (item : CartItem)
    (rest : List CartItem) (total : ℚ) (db dbm : DB)
    (hpre : processItems db.next_transaction_id pre (insert_transaction_row db total) =
      Except.ok dbm)
    (hfind : dbm.booze.find? (fun q => q.id == item.product_id) = none) :
    (process_sale_transaction (pre ++ item :: rest) total db).1 =
      SaleResult.err (SaleError.productNotFound item.product_id) ∧
    (process_sale_transaction (pre ++ item :: rest) total db).2 = db := by
  have hrun : processItems db.next_transaction_id (pre ++ item :: rest)
      (insert_transaction_row db total) =
      Except.error (SaleError.productNotFound item.product_id) := by
    rw [processItems_append, hpre]
    exact processItems_cons_none _ item rest dbm hfind
  unfold process_sale_transaction
  rw [hrun]
  exact ⟨rfl, rfl⟩

/-- Witness for C5: Scenario C — a cart line for product 999, which has no
row, aborts the sale and the store is unchanged. -/
theorem claim_C5_product_not_found_abort_witness :
    processItems dbLow.next_transaction_id [] (insert_transaction_row dbLow 10) =
      Except.ok (insert_transaction_row dbLow 10) ∧
    (insert_transaction_row dbLow 10).booze.find?
      (fun q => q.id == (⟨999, "Rum", 2, 5⟩ : CartItem).product_id) = none ∧
    ((process_sale_transaction ([] ++ ⟨999, "Rum", 2, 5⟩ :: []) 10 dbLow).1 =
      SaleResult.err (SaleError.productNotFound 999) ∧
      (process_sale_transaction ([] ++ ⟨999, "Rum", 2, 5⟩ :: []) 10 dbLow).2 = dbLow) :=
  ⟨by rfl, by rfl,
    claim_C5_product_not_found_abort [] _ [] 10 dbLow _ (by rfl) (by rfl)⟩

/-- A store holding one product, id 1, price 5, stock 10. -/
def dbTen : DB := ⟨[⟨1, "Gin", 5, 10⟩], [], [], 1⟩

/-- C7. Total invariant: when process_sale succeeds, the stored header row
carries total_amount equal to the sum of price times quantity over the cart,
computed from the cart before commit — a value that depends on the cart alone,
not on catalog prices at or after commit time. -/
theorem claim_C7_total_invariant (cart : List CartItem) (st : SalesState)
    (hne : cart ≠ []) (hs : (process_sale cart st).1.1 = true) :
    (process_sale cart st).2.db.transactions =
      st.db.transactions ++
        [⟨st.db.next_transaction_id,
          (cart.map (fun item => item.price * (item.quantity : ℚ))).sum⟩] := by
  unfold process_sale at hs ⊢
  cases cart with
  | nil => exact absurd rfl hne
  | cons a l =>
    cases hp : process_sale_transaction (a :: l)
        ((List.map (fun item => item.price * (item.quantity : ℚ)) (a :: l)).sum) st.db with
    | mk r db2 =>
      cases r with
      | ok tid =>
        have h1 : (process_sale_transaction (a :: l)
            ((List.map (fun item => item.price * (item.quantity : ℚ)) (a :: l)).sum)
            st.db).1 = SaleResult.ok tid := by rw [hp]
        obtain ⟨htid, ht1, ht2, ht3, ht4⟩ := pst_ok_state _ _ _ tid h1
        rw [hp] at ht1
        exact ht1
      | err e =>
        rw [hp] at hs
        simp at hs

/-- Witness for C7: Scenario A at the sales layer — the committed header
carries total 50 = 5 * 10. -/
theorem claim_C7_total_invariant_witness :
    ([⟨1, "Gin", 10, 5⟩] : List CartItem) ≠ [] ∧
    (process_sale [⟨1, "Gin", 10, 5⟩] stHigh).1.1 = true ∧
    (process_sale [⟨1, "Gin", 10, 5⟩] stHigh).2.db.transactions =
      stHigh.db.transactions ++
        [⟨stHigh.db.next_transaction_id,
          (([⟨1, "Gin", 10, 5⟩] : List CartItem).map
            (fun item => item.price * (item.quantity : ℚ))).sum⟩] :=
  ⟨by simp, by rfl, claim_C7_total_invariant _ _ (by simp) (by rfl)⟩

/-- C8. Cart-builder advisory check: for an existing product the check accepts
exactly when the quantity already in the cart plus the newly requested quantity
fits the live stock; a rejection reports the product's name, the available
stock, the quantity already reserved, the new request, and the total needed. -/
theorem claim_C8_cart_builder_check (product_id : Nat) (requested_quantity : Int)
    (cart : List CartItem) (db : DB) (p : Product)
    (hfind : get_product_details product_id db = some p) :
    ((check_stock_availability product_id requested_quantity cart db).1 = true ↔
      cartQty cart product_id + requested_quantity ≤ p.quantity_on_hand) ∧
    ((check_stock_availability product_id requested_quantity cart db).1 = false →
      (check_stock_availability product_id requested_quantity cart db).2.2 =
        some (StockCheckErr.insufficientMsg p.name p.quantity_on_hand
          (cartQty cart product_id) requested_quantity
          (cartQty cart product_id + requested_quantity))) := by
  rw [check_stock_availability_some product_id requested_quantity cart db p hfind]
  by_cases hlt : p.quantity_on_hand < cartQty cart product_id + requested_quantity
  · rw [if_pos hlt]
    refine ⟨⟨fun hfalse => absurd hfalse (by simp), fun hle => absurd hle (not_le.mpr hlt)⟩,
      fun _ => rfl⟩
  · rw [if_neg hlt]
    refine ⟨⟨fun _ => by omega, fun _ => rfl⟩, fun hfalse => absurd hfalse (by simp)⟩

/-- Witness for C8: requesting 3 more of product 1 with 3 already in the cart
against stock 5 is rejected with the full breakdown (5 available, 3 reserved,
3 requested, 6 needed). -/
theorem claim_C8_cart_builder_check_witness :
    get_product_details 1 dbLow = some ⟨1, "Gin", 5, 5⟩ ∧
    (((check_stock_availability 1 3 [⟨1, "Gin", 3, 5⟩] dbLow).1 = true ↔
      cartQty [⟨1, "Gin", 3, 5⟩] 1 + 3 ≤ (⟨1, "Gin", 5, 5⟩ : Product).quantity_on_hand) ∧
    ((check_stock_availability 1 3 [⟨1, "Gin", 3, 5⟩] dbLow).1 = false →
      (check_stock_availability 1 3 [⟨1, "Gin", 3, 5⟩] dbLow).2.2 =
        some (StockCheckErr.insufficientMsg "Gin" 5
          (cartQty [⟨1, "Gin", 3, 5⟩] 1) 3 (cartQty [⟨1, "Gin", 3, 5⟩] 1 + 3)))) :=
  ⟨by rfl, claim_C8_cart_builder_check 1 3 _ dbLow ⟨1, "Gin", 5, 5⟩ (by rfl)⟩

/-- C9. Cumulative check for duplicate lines: each line's fresh stock re-read
sees the decrements of earlier lines of the same call, so (for carts of
positive line quantities, the cart-validation contract) the commit succeeds
exactly when every line's product exists and, for every product, the sum of
its quantities across all cart lines fits its stock at the start of the call. -/
theorem claim_C9_duplicate_lines_cumulative (cart : List CartItem) (total : ℚ) (db : DB)
    (hq : ∀ it ∈ cart, 0 < it.quantity) :
    (∃ tid, (process_sale_transaction cart total db).1 = SaleResult.ok tid) ↔
      ∀ it ∈ cart, ∃ s, get_stock db it.product_id = some s ∧
        cartQty cart it.product_id ≤ s := by
  have hiff := processItems_ok_iff db.next_transaction_id cart
    (insert_transaction_row db total) hq
  unfold process_sale_transaction
  constructor
  · rintro ⟨tid, h⟩
    cases hpi : processItems db.next_transaction_id cart (insert_transaction_row db total) with
    | ok db2 =>
      have hall := hiff.mp ⟨db2, hpi⟩
      exact fun it hit => hall it hit
    | error e =>
      rw [hpi] at h
      exact absurd h (by simp)
  · intro H
    obtain ⟨db2, hdb2⟩ := hiff.mpr (fun it hit => H it hit)
    refine ⟨db.next_transaction_id, ?_⟩
    rw [hdb2]

/-- Witness for C9: two lines of 6 and 4 for product 1 against stock 10 — the
second line's re-read sees 4 left, and the commit succeeds since 6 + 4 ≤ 10. -/
theorem claim_C9_duplicate_lines_cumulative_witness :
    (∀ it ∈ ([⟨1, "Gin", 6, 5⟩, ⟨1, "Gin", 4, 5⟩] : List CartItem), 0 < it.quantity) ∧
    ((∃ tid, (process_sale_transaction [⟨1, "Gin", 6, 5⟩, ⟨1, "Gin", 4, 5⟩] 50 dbTen).1 =
        SaleResult.ok tid) ↔
      ∀ it ∈ ([⟨1, "Gin", 6, 5⟩, ⟨1, "Gin", 4, 5⟩] : List CartItem),
        ∃ s, get_stock dbTen it.product_id = some s ∧
          cartQty [⟨1, "Gin", 6, 5⟩, ⟨1, "Gin", 4, 5⟩] it.product_id ≤ s) :=
  ⟨by decide, claim_C9_duplicate_lines_cumulative _ 50 dbTen (by decide)⟩
